import Mathlib

/-!
Verification development for the debugging-tool overlay library.

The definitions below are a shallow embedding of the library's element
inspection, selector generation, annotation storage and dashboard code
(`src/components/DebugOverlay.tsx` and the annotation system / dashboard
components).  DOM elements are modelled as upward parent chains carrying
exactly the attributes the code reads; JS objects keyed by annotation id
are modelled as association lists with unique keys in insertion order.
Strings are Lean strings; JS `trim` / `slice` are modelled on character
lists so that all definitions evaluate by kernel reduction.
-/

namespace DebugTool

/-! ## DOM model

`generateUniqueSelector`, `getDomPath` and the annotation click handler
read, for each element on the upward chain: `tagName` (lower-cased here),
`id` (the empty string when the attribute is absent, matching JS
truthiness of `element.id`), `classList`, `data-testid`, `dataset.np`,
and the element's 0-based position among its parent's children
(`siblings.indexOf(current)`).  The chain ends either at `document.body`
(the walk's stop node) or at a node with no parent element (JS `null`).
-/

structure NodeData where
  tag : String
  id : String
  classes : List String
deriving Repr, DecidableEq

inductive Elem where
  /-- `document.body`: the walk's boundary, never descended into. -/
  | body : Elem
  /-- Marks `parentElement === null` (a detached root, or `<html>`). -/
  | nullParent : Elem
  /-- A real element: data, `data-testid`, `dataset.np`, 0-based index
  among its parent's children, and its parent. -/
  | node (data : NodeData) (testId np : Option String) (childIdx : Nat)
      (parent : Elem) : Elem
deriving Repr, DecidableEq

/-- JS truthiness of `getAttribute(...)` / `dataset` reads: a string is
truthy iff non-empty; `none` models `null`/`undefined`. -/
def truthy : Option String → Bool
  | some s => s ≠ ""
  | none => false

/-- Whether `current.parentElement` is non-null; when it is null the code
sees an empty sibling list and `indexOf` returns `-1`, so no
`:nth-child` is appended. -/
def hasParentOf : Elem → Bool
  | .nullParent => false
  | _ => true

/-- `'.' + classes.slice(0, 2).join('.')` guarded by `className` being a
non-empty string (equivalently: the class list being non-empty). -/
def classPart (classes : List String) : String :=
  if classes.isEmpty then "" else "." ++ String.intercalate "." (classes.take 2)

/-- One level of the ancestor walk:
`tag` + optional `.class1.class2` + `:nth-child(index+1)` when the node
has a parent element. -/
def levelSelector (d : NodeData) (childIdx : Nat) (hasParent : Bool) : String :=
  let base := d.tag ++ classPart d.classes
  if hasParent then base ++ ":nth-child(" ++ toString (childIdx + 1) ++ ")" else base

/-- `Array.prototype.join(sep)`. -/
def joinSep (sep : String) : List String → String
  | [] => ""
  | [s] => s
  | s :: rest => s ++ sep ++ joinSep sep rest

/-- The `while` loop of `generateUniqueSelector`: `count` is the number
of entries already pushed onto `path` (the loop breaks once
`path.length > 10`, i.e. after pushing an 11th entry).  The result is
the path from the highest visited ancestor down to the element.  An
ancestor with an id contributes `#id` and stops the climb. -/
def walkPath : Elem → Nat → List String
  | .body, _ => []
  | .nullParent, _ => []
  | .node d _ _ idx parent, count =>
      if d.id ≠ "" then ["#" ++ d.id]
      else
        let sel := levelSelector d idx (hasParentOf parent)
        if count + 1 > 10 then [sel]
        else walkPath parent (count + 1) ++ [sel]

/-- `generateUniqueSelector` (DebugOverlay.tsx): `#id` for an element
with a truthy id, else a `data-testid` attribute selector, else a
`data-np` attribute selector, else the ancestor walk joined with
`" > "`.  The boundary constructors stand for nodes the code never
selects on. -/
def generateUniqueSelector : Elem → String
  | .body => ""
  | .nullParent => ""
  | .node d testId np idx parent =>
      if d.id ≠ "" then "#" ++ d.id
      else if truthy testId then "[data-testid=\"" ++ testId.getD "" ++ "\"]"
      else if truthy np then "[data-np=\"" ++ np.getD "" ++ "\"]"
      else joinSep " > " (walkPath (.node d testId np idx parent) 0)

/-- One `getDomPath` entry: `tag` plus `#id` when the id is truthy. -/
def domPart (d : NodeData) : String :=
  d.tag ++ (if d.id ≠ "" then "#" ++ d.id else "")

/-- The `while` loop of `getDomPath` (DebugOverlay.tsx): same walk shape,
break once `path.length > 8`, i.e. after pushing a 9th entry. -/
def getDomPath : Elem → Nat → List String
  | .body, _ => []
  | .nullParent, _ => []
  | .node d _ _ _ parent, count =>
      let part := domPart d
      if count + 1 > 8 then [part]
      else getDomPath parent (count + 1) ++ [part]

/-- JS `String.prototype.trim`, modelled on the character list. -/
def jsTrim (s : String) : String :=
  String.mk (((s.toList.dropWhile Char.isWhitespace).reverse.dropWhile
    Char.isWhitespace).reverse)

/-- `extractTextContent` (DebugOverlay.tsx): trim, return `undefined`
for an empty result, truncate to 47 characters plus `"..."` when longer
than 50. -/
def extractTextContent (raw : String) : Option String :=
  let text := jsTrim raw
  if text = "" then none
  else if text.length > 50 then some (String.mk (text.toList.take 47) ++ "...")
  else some text

/-- Every node the selector walk actually visits — starting with
`count` entries already pushed, so the element and then ancestors until
the body or until the `path.length > 10` break — has an empty id and a
present parent element.  Nodes above the break are not constrained:
the walk never reaches them, so their ids are irrelevant. -/
def walkOk : Elem → Nat → Bool
  | .body, _ => true
  | .nullParent, _ => true
  | .node d _ _ _ p, count =>
      (d.id = "") && hasParentOf p && (count + 1 > 10 || walkOk p (count + 1))

/-- `(d, i)` is the data and child index of some node on the chain
(the element itself or an ancestor strictly below the boundary). -/
def onChain : Elem → NodeData → Nat → Bool
  | .body, _, _ => false
  | .nullParent, _, _ => false
  | .node d _ _ idx p, d', idx' => ((d = d') && (idx = idx')) || onChain p d' idx'

/-- A straight chain of `n` class-less, id-less `div`s under `body`. -/
def deepChain : Nat → Elem
  | 0 => .body
  | n + 1 => .node ⟨"div", "", []⟩ none none 0 (deepChain n)

/-! ## Annotation store model

`Record<string, DebugAnnotation>` is modelled as an association list in
insertion order with unique keys.  The object spread
`{ ...prev, [id]: v }` keeps an existing key at its position with the
new value and appends a fresh key at the end.  Because
`updateStatus` spreads `annotations[id]` without checking presence, a
missing id yields the fabricated object `{ status }`; store values are
therefore either full records or such status-only stubs. -/

inductive AnnotationStatus where
  | pending
  | inProgress
  | resolved
  | dismissed
deriving Repr, DecidableEq

/-- The reduced element snapshot stored inside an annotation record
(`DebugAnnotation.elementInfo` in `lib/types.ts`). -/
structure AnnotationElementInfo where
  tagName : String
  id : Option String
  uniqueSelector : String
  componentName : Option String
  textContent : Option String
deriving Repr, DecidableEq

/-- `DebugAnnotation` (`lib/types.ts`). -/
structure AnnotationRecord where
  id : String
  selector : String
  elementInfo : AnnotationElementInfo
  comment : String
  aiPrompt : Option String
  timestamp : Int
  status : AnnotationStatus
deriving Repr, DecidableEq

/-- A runtime store value: a full record, or the status-only stub
that `{ ...undefined, status }` evaluates to. -/
inductive StoreValue where
  | full (a : AnnotationRecord) : StoreValue
  | statusOnly (s : AnnotationStatus) : StoreValue
deriving Repr, DecidableEq

/-- Both value shapes expose a `status` field. -/
def StoreValue.status : StoreValue → AnnotationStatus
  | .full a => a.status
  | .statusOnly s => s

/-- `timestamp` as read by the dashboard's sort comparator.  A
fabricated stub has no timestamp (read as 0 here; the claims about
sorting are stated over stores of full records only). -/
def StoreValue.timestampVal : StoreValue → Int
  | .full a => a.timestamp
  | .statusOnly _ => 0

abbrev Store := List (String × StoreValue)

/-- `annotations[id]`: the value bound to `id`, if any. -/
def storeLookup (m : Store) (id : String) : Option StoreValue :=
  (m.find? (fun p => p.1 = id)).map Prod.snd

/-- `{ ...prev, [id]: v }`. -/
def storeInsert (m : Store) (id : String) (v : StoreValue) : Store :=
  if m.any (fun p => p.1 = id) then
    m.map (fun p => if p.1 = id then (id, v) else p)
  else m ++ [(id, v)]

/-- `handleSave` in the annotation dialog: refuses a blank comment, else
builds the record with `status: 'pending'` and the dialog's element
info, comment, generated prompt and timestamp. -/
def handleSave (genId : String) (info : AnnotationElementInfo)
    (comment aiPrompt : String) (now : Int) : Option AnnotationRecord :=
  if jsTrim comment = "" then none
  else some
    { id := genId
      selector := info.uniqueSelector
      elementInfo := info
      comment := comment
      aiPrompt := some aiPrompt
      timestamp := now
      status := .pending }

/-- `handleSaveAnnotation`: `{ ...prev, [annotation.id]: annotation }`. -/
def handleSaveToStore (m : Store) (a : AnnotationRecord) : Store :=
  storeInsert m a.id (.full a)

/-- `{ ...annotations[id], status }`: merging over a present record
replaces its status; merging over `undefined` fabricates a status-only
stub. -/
def mergeWithStatus (v : Option StoreValue) (s : AnnotationStatus) : StoreValue :=
  match v with
  | some (.full a) => .full { a with status := s }
  | some (.statusOnly _) => .statusOnly s
  | none => .statusOnly s

/-- `updateStatus` in the dashboard:
`{ ...annotations, [id]: { ...annotations[id], status } }`. -/
def updateStatus (m : Store) (id : String) (s : AnnotationStatus) : Store :=
  storeInsert m id (mergeWithStatus (storeLookup m id) s)

/-- `deleteAnnotation` in the dashboard: copy the object and `delete`
the key (object keys are unique, so removing every binding of the key
coincides with deleting the single one). -/
def deleteAnnotationEntry (m : Store) (id : String) : Store :=
  m.filter (fun p => p.1 ≠ id)

/-- The dashboard's filter selection. -/
inductive FilterOption where
  | all
  | status (s : AnnotationStatus)

/-- `b.timestamp - a.timestamp` as a descending-order comparator. -/
def byTimestampDesc (a b : StoreValue) : Bool :=
  b.timestampVal ≤ a.timestampVal

/-- `annotationList` in the dashboard:
`Object.values(annotations).sort((a, b) => b.timestamp - a.timestamp)`,
then, unless the filter is `all`, keep entries whose status equals the
filter. -/
def annotationList (m : Store) (f : FilterOption) : List StoreValue :=
  let list := (m.map Prod.snd).mergeSort byTimestampDesc
  match f with
  | .all => list
  | .status s => list.filter (fun a => a.status = s)

/-- `handleClick` in the annotation system: its own selector rule:
`#id` for a truthy id, else tag plus at most the first two class names
(no `:nth-child`, no `data-testid`/`data-np` handling). -/
def clickSelector (d : NodeData) : String :=
  if d.id ≠ "" then "#" ++ d.id
  else d.tag ++ classPart d.classes

/-- The element info assembled by `handleClick` and passed to the save
dialog; `textContent` is `trim()` then `slice(0, 50)`, demoted to
`undefined` when empty. -/
def clickElementInfo (d : NodeData) (rawText : String) : AnnotationElementInfo :=
  { tagName := d.tag
    id := if d.id ≠ "" then some d.id else none
    uniqueSelector := clickSelector d
    componentName := none
    textContent :=
      let t := String.mk ((jsTrim rawText).toList.take 50)
      if t = "" then none else some t }

/-! ## Helper lemmas -/

theorem storeLookup_map_replace (m : Store) (id : String) (v : StoreValue)
    (h : m.any (fun p => p.1 = id) = true) :
    storeLookup (m.map (fun p => if p.1 = id then (id, v) else p)) id = some v := by
  induction m with
  | nil => simp at h
  | cons p rest ih =>
      by_cases hp : p.1 = id
      · simp [storeLookup, List.find?_cons, hp]
      · have h' : rest.any (fun p => p.1 = id) = true := by
          simpa [List.any_cons, hp] using h
        have := ih h'
        simpa [storeLookup, List.find?_cons, hp] using this

theorem storeLookup_storeInsert (m : Store) (id : String) (v : StoreValue) :
    storeLookup (storeInsert m id v) id = some v := by
  unfold storeInsert
  by_cases h : m.any (fun p => p.1 = id) = true
  · rw [if_pos h]
    exact storeLookup_map_replace m id v h
  · rw [if_neg h]
    have hnone : m.find? (fun p => p.1 = id) = none := by
      rw [List.find?_eq_none]
      intro x hx hfalse
      exact h (List.any_eq_true.mpr ⟨x, hx, hfalse⟩)
    simp [storeLookup, List.find?_append, hnone, List.find?_cons]

/-! ## Claims -/

/-- C1: the claim states that `updateStatus(id, status)` on an absent id
leaves the mapping unchanged and inserts no fabricated partial record.
The code instead evaluates `{ ...annotations, [id]: { ...annotations[id],
status } }` with `annotations[id]` undefined, inserting a record holding
only a status field.  This theorem evaluates the code at the failing
input: the empty mapping, id `"a"`, status `resolved`. -/
theorem c1_updateStatus_absent_fabricates :
    updateStatus ([] : Store) "a" .resolved = [("a", .statusOnly .resolved)] := rfl

/-- C2: for every element whose identifier attribute is a non-empty
string, the selector generator returns exactly `"#"` followed by that
id, regardless of ancestors, classes, test-id or debug-comment
attributes. -/
theorem c2_nonempty_id_yields_hash_id (d : NodeData) (testId np : Option String)
    (idx : Nat) (parent : Elem) (h : d.id ≠ "") :
    generateUniqueSelector (.node d testId np idx parent) = "#" ++ d.id := by
  simp [generateUniqueSelector, h]

theorem c2_witness :
    ("btn" : String) ≠ ""
      ∧ generateUniqueSelector (.node ⟨"button", "btn", ["c1", "c2"]⟩ (some "tid")
          (some "np") 3 (.node ⟨"main", "", ["wrap"]⟩ none none 1 .body))
        = "#" ++ "btn" :=
  ⟨by decide, c2_nonempty_id_yields_hash_id _ _ _ _ _ (by decide)⟩

/-- C6: every annotation produced by the save dialog, once saved into
the store, reads back equal to the saved record in all fields, and its
status at creation is `pending`. -/
theorem c6_save_round_trip (m : Store) (genId : String)
    (info : AnnotationElementInfo) (comment aiPrompt : String) (now : Int)
    (a : AnnotationRecord)
    (h : handleSave genId info comment aiPrompt now = some a) :
    storeLookup (handleSaveToStore m a) a.id = some (.full a)
      ∧ a.id = genId ∧ a.selector = info.uniqueSelector ∧ a.elementInfo = info
      ∧ a.comment = comment ∧ a.aiPrompt = some aiPrompt ∧ a.timestamp = now
      ∧ a.status = .pending := by
  have hlk := storeLookup_storeInsert m a.id (.full a)
  unfold handleSave at h
  split at h
  · exact absurd h (by simp)
  · have h' := h
    injection h' with h'
    subst h'
    exact ⟨hlk, rfl, rfl, rfl, rfl, rfl, rfl, rfl⟩

theorem c6_witness :
    handleSave "anno-1" ⟨"div", none, "div", none, none⟩ "broken" "prompt" 7
        = some ⟨"anno-1", "div", ⟨"div", none, "div", none, none⟩, "broken",
          some "prompt", 7, .pending⟩
      ∧ storeLookup
          (handleSaveToStore ([] : Store)
            ⟨"anno-1", "div", ⟨"div", none, "div", none, none⟩, "broken",
              some "prompt", 7, .pending⟩)
          "anno-1"
        = some (.full ⟨"anno-1", "div", ⟨"div", none, "div", none, none⟩,
            "broken", some "prompt", 7, .pending⟩) :=
  ⟨by decide,
    (c6_save_round_trip ([] : Store) "anno-1" ⟨"div", none, "div", none, none⟩
      "broken" "prompt" 7 _ (by decide)).1⟩

/-- C7: `delete(id)` is idempotent, and deleting an absent id leaves
the mapping unchanged. -/
theorem c7_delete_idempotent (m : Store) (id : String) :
    deleteAnnotationEntry (deleteAnnotationEntry m id) id
        = deleteAnnotationEntry m id
      ∧ ((∀ p ∈ m, p.1 ≠ id) → deleteAnnotationEntry m id = m) := by
  constructor
  · apply List.filter_eq_self.mpr
    intro p hp
    have := List.of_mem_filter hp
    simpa using this
  · intro h
    apply List.filter_eq_self.mpr
    intro p hp
    simpa using h p hp

theorem c7_witness :
    (∀ p ∈ ([("b", StoreValue.statusOnly .pending)] : Store), p.1 ≠ "a")
      ∧ deleteAnnotationEntry ([("b", StoreValue.statusOnly .pending)] : Store) "a"
          = [("b", StoreValue.statusOnly .pending)] :=
  ⟨by decide, (c7_delete_idempotent _ "a").2 (by decide)⟩

theorem walkPath_length_le (e : Elem) :
    ∀ count, count ≤ 10 → (walkPath e count).length ≤ 11 - count := by
  induction e with
  | body => intro count _; simp [walkPath]
  | nullParent => intro count _; simp [walkPath]
  | node d tid np idx parent ih =>
      intro count hc
      unfold walkPath
      by_cases hid : d.id ≠ ""
      · rw [if_pos hid]; simp; omega
      · rw [if_neg hid]
        by_cases hb : count + 1 > 10
        · rw [if_pos hb]; simp; omega
        · rw [if_neg hb]
          have := ih (count + 1) (by omega)
          simp only [List.length_append, List.length_cons, List.length_nil]
          omega

/-- C4 counterexample: a chain of 12 id-less, class-less `div`s below
the body.  The walk pushes an 11th level before the `path.length > 10`
break fires, so the returned selector has 11 levels, not at most 10. -/
theorem c4_counterexample :
    (walkPath (deepChain 12) 0).length = 11
      ∧ generateUniqueSelector (deepChain 12)
          = joinSep " > " (walkPath (deepChain 12) 0) :=
  ⟨by decide, rfl⟩

/-- C4 (amended): the ancestor walk stops at the document body, and the
level-count break fires only after an 11th level has been pushed, so
the selector path has at most 11 levels (not 10). -/
theorem c4_walk_level_bound :
    walkPath Elem.body 0 = [] ∧ ∀ e : Elem, (walkPath e 0).length ≤ 11 := by
  refine ⟨rfl, fun e => ?_⟩
  simpa using walkPath_length_le e 0 (by omega)

theorem getDomPath_length_le (e : Elem) :
    ∀ count, count ≤ 8 → (getDomPath e count).length ≤ 9 - count := by
  induction e with
  | body => intro count _; simp [getDomPath]
  | nullParent => intro count _; simp [getDomPath]
  | node d tid np idx parent ih =>
      intro count hc
      unfold getDomPath
      by_cases hb : count + 1 > 8
      · rw [if_pos hb]; simp; omega
      · rw [if_neg hb]
        have := ih (count + 1) (by omega)
        simp only [List.length_append, List.length_cons, List.length_nil]
        omega

theorem getDomPath_mem_shape (e : Elem) :
    ∀ count, ∀ s ∈ getDomPath e count,
      ∃ d i, onChain e d i = true ∧ s = domPart d := by
  induction e with
  | body => intro count s hs; simp [getDomPath] at hs
  | nullParent => intro count s hs; simp [getDomPath] at hs
  | node d tid np idx parent ih =>
      intro count s hs
      unfold getDomPath at hs
      by_cases hb : count + 1 > 8
      · rw [if_pos hb] at hs
        simp at hs
        exact ⟨d, idx, by simp [onChain], hs⟩
      · rw [if_neg hb] at hs
        rcases List.mem_append.mp hs with hrec | hself
        · obtain ⟨d', i, hchain, hform⟩ := ih (count + 1) s hrec
          exact ⟨d', i, by simp [onChain, hchain], hform⟩
        · simp at hself
          exact ⟨d, idx, by simp [onChain], hself⟩

/-- C5 counterexample: a chain of 10 elements below the body makes
`getDomPath` return 9 entries, because the `path.length > 8` break
fires only after a 9th entry was pushed; the claim allows at most 8. -/
theorem c5_counterexample : (getDomPath (deepChain 10) 0).length = 9 := by
  decide

/-- C5 (amended): the ancestor tag-path has at most 9 entries (not 8),
each being the tag of a chain node optionally followed by `#id`. -/
theorem c5_dom_path_bound :
    ∀ e : Elem, (getDomPath e 0).length ≤ 9
      ∧ ∀ s ∈ getDomPath e 0, ∃ d i, onChain e d i = true ∧ s = domPart d := by
  intro e
  refine ⟨by simpa using getDomPath_length_le e 0 (by omega), ?_⟩
  exact getDomPath_mem_shape e 0

theorem c5_witness :
    ("div#z" ∈ getDomPath (.node ⟨"div", "z", []⟩ none none 0 .body) 0)
      ∧ ∃ d i, onChain (.node ⟨"div", "z", []⟩ none none 0 .body) d i = true
          ∧ "div#z" = domPart d :=
  ⟨by decide,
    (c5_dom_path_bound (.node ⟨"div", "z", []⟩ none none 0 .body)).2 "div#z"
      (by decide)⟩

theorem string_eq_empty_of_length_eq_zero (s : String) (h : s.length = 0) :
    s = "" := by
  cases s with
  | mk data =>
      simp [String.length] at h
      simp [h]

theorem levelSelector_true_ne_empty (d : NodeData) (i : Nat) :
    levelSelector d i true ≠ "" := by
  intro h
  have hlen := congrArg String.length h
  have h1 : (":nth-child(" : String).length = 11 := rfl
  have h2 : (")" : String).length = 1 := rfl
  simp [levelSelector, String.length_append, h1, h2] at hlen

theorem joinSep_ne_empty (sep : String) :
    ∀ l : List String, l ≠ [] → (∀ s ∈ l, s ≠ "") → joinSep sep l ≠ "" := by
  intro l
  match l with
  | [] => intro h _; exact absurd rfl h
  | [s] => intro _ hall; simpa [joinSep] using hall s (by simp)
  | s :: t :: rest =>
      intro _ hall h
      have hs : s ≠ "" := hall s (by simp)
      have hlen := congrArg String.length h
      simp [joinSep, String.length_append] at hlen
      exact hs (string_eq_empty_of_length_eq_zero s (by omega))

theorem walkPath_node_ne_nil (d : NodeData) (tid np : Option String) (idx : Nat)
    (parent : Elem) (count : Nat) :
    walkPath (.node d tid np idx parent) count ≠ [] := by
  unfold walkPath
  by_cases hid : d.id ≠ ""
  · simp [hid]
  · rw [if_neg hid]
    by_cases hb : count + 1 > 10
    · simp [hb]
    · simp [hb]

theorem walkPath_mem_nth_child (e : Elem) :
    ∀ count, walkOk e count = true →
      ∀ s ∈ walkPath e count,
        ∃ d i, onChain e d i = true ∧ s = levelSelector d i true := by
  induction e with
  | body => intro count _ s hs; simp [walkPath] at hs
  | nullParent => intro count _ s hs; simp [walkPath] at hs
  | node d tid np idx parent ih =>
      intro count hok s hs
      have hok' := hok
      simp [walkOk] at hok'
      obtain ⟨⟨hid, hpar⟩, hrest⟩ := hok'
      unfold walkPath at hs
      rw [if_neg (by simp [hid])] at hs
      simp only [hpar] at hs
      by_cases hb : count + 1 > 10
      · rw [if_pos hb] at hs
        simp at hs
        exact ⟨d, idx, by simp [onChain], hs⟩
      · rw [if_neg hb] at hs
        rcases List.mem_append.mp hs with hrec | hself
        · have hwk : walkOk parent (count + 1) = true := by
            rcases hrest with hgt | hwk
            · exact absurd hgt hb
            · exact hwk
          obtain ⟨d', i, hchain, hform⟩ := ih (count + 1) hwk s hrec
          exact ⟨d', i, by simp [onChain, hchain], hform⟩
        · simp at hself
          exact ⟨d, idx, by simp [onChain], hself⟩

/-- C3 counterexample: a `span` with no id, classes, test-id or
debug-comment attribute whose parent `div` carries id `p`.  The
generator returns `"#p > span:nth-child(1)"`, and the `#p` level
carries no `:nth-child` qualifier (it is not of the nth-child level
form for any node data and index), refuting "every level". -/
theorem c3_counterexample :
    generateUniqueSelector (.node ⟨"span", "", []⟩ none none 0
        (.node ⟨"div", "p", []⟩ none none 0 .body))
      = "#p > span:nth-child(1)"
      ∧ walkPath (.node ⟨"span", "", []⟩ none none 0
          (.node ⟨"div", "p", []⟩ none none 0 .body)) 0
        = ["#p", "span:nth-child(1)"]
      ∧ ∀ d i, ("#p" : String) ≠ levelSelector d i true := by
  refine ⟨by decide, by decide, ?_⟩
  intro d i h
  have hlen := congrArg String.length h
  have h1 : (":nth-child(" : String).length = 11 := rfl
  have h2 : (")" : String).length = 1 := rfl
  have h3 : ("#p" : String).length = 2 := rfl
  simp [levelSelector, String.length_append, h1, h2, h3] at hlen
  omega

/-- C3 (amended): for every element such that each level the selector
walk actually visits (the element itself and then ancestors, until the
body or until the `path.length > 10` break) has an empty id and a
present parent element, and whose test-id and debug-comment attributes
are not truthy, every level of the generated selector path is of the
nth-child-qualified form `tag[.classes]:nth-child(i)` with `i` the
1-based position of that level's node among its parent's children, and
the resulting selector is non-empty.  Ancestors above the break are
unconstrained (the walk never reaches them).  (A walked level with an
id is a bare `#id` carrying no `:nth-child`, which is what refutes the
original claim.) -/
theorem c3_nth_child_at_every_level (d : NodeData) (tid np : Option String)
    (idx : Nat) (parent : Elem)
    (h1 : walkOk (.node d tid np idx parent) 0 = true)
    (h3 : truthy tid = false) (h4 : truthy np = false) :
    generateUniqueSelector (.node d tid np idx parent) ≠ ""
      ∧ ∀ s ∈ walkPath (.node d tid np idx parent) 0,
          ∃ d' i, onChain (.node d tid np idx parent) d' i = true
            ∧ s = levelSelector d' i true := by
  have hid : d.id = "" := by
    have h1' := h1
    simp [walkOk] at h1'
    exact h1'.1.1
  have hmem := walkPath_mem_nth_child (.node d tid np idx parent) 0 h1
  constructor
  · have hsel : generateUniqueSelector (.node d tid np idx parent)
        = joinSep " > " (walkPath (.node d tid np idx parent) 0) := by
      simp [generateUniqueSelector, hid, h3, h4]
    rw [hsel]
    apply joinSep_ne_empty
    · exact walkPath_node_ne_nil d tid np idx parent 0
    · intro s hs
      obtain ⟨d', i, _, hform⟩ := hmem s hs
      rw [hform]
      exact levelSelector_true_ne_empty d' i
  · exact hmem

theorem c3_witness :
    (walkOk (.node ⟨"div", "", []⟩ none none 0 .body) 0 = true
        ∧ truthy none = false)
      ∧ generateUniqueSelector (.node ⟨"div", "", []⟩ none none 0 .body) ≠ "" :=
  ⟨⟨by decide, by decide⟩,
    (c3_nth_child_at_every_level ⟨"div", "", []⟩ none none 0 .body (by decide)
      (by decide) (by decide)).1⟩

theorem byTimestampDesc_trans (a b c : StoreValue)
    (h1 : byTimestampDesc a b = true) (h2 : byTimestampDesc b c = true) :
    byTimestampDesc a c = true := by
  simp [byTimestampDesc] at h1 h2 ⊢
  omega

theorem byTimestampDesc_total (a b : StoreValue) :
    (byTimestampDesc a b || byTimestampDesc b a) = true := by
  simp [byTimestampDesc]
  omega

theorem annotationList_sorted (m : Store) (f : FilterOption) :
    List.Sorted (fun a b : StoreValue => b.timestampVal ≤ a.timestampVal)
      (annotationList m f) := by
  have hpw : List.Pairwise (fun a b : StoreValue => byTimestampDesc a b = true)
      ((m.map Prod.snd).mergeSort byTimestampDesc) :=
    List.sorted_mergeSort byTimestampDesc_trans byTimestampDesc_total
      (m.map Prod.snd)
  have hpw' : List.Pairwise (fun a b : StoreValue =>
      b.timestampVal ≤ a.timestampVal)
      ((m.map Prod.snd).mergeSort byTimestampDesc) := by
    refine hpw.imp ?_
    intro a b h
    simpa [byTimestampDesc] using h
  cases f with
  | all => exact hpw'
  | status s =>
      exact List.Pairwise.sublist (List.filter_sublist _) hpw'

theorem four_filter_perm (l : List StoreValue) :
    (l.filter (fun v => v.status = AnnotationStatus.pending)
        ++ (l.filter (fun v => v.status = AnnotationStatus.inProgress)
          ++ (l.filter (fun v => v.status = AnnotationStatus.resolved)
            ++ l.filter (fun v => v.status = AnnotationStatus.dismissed)))).Perm
      l := by
  induction l with
  | nil => simp
  | cons v t ih =>
      cases hst : v.status with
      | pending =>
          simp [List.filter_cons, hst]
          exact ih
      | inProgress =>
          simp [List.filter_cons, hst]
          exact List.perm_middle.trans (ih.cons v)
      | resolved =>
          simp [List.filter_cons, hst]
          rw [← List.append_assoc]
          refine List.perm_middle.trans (List.Perm.cons v ?_)
          simpa [List.append_assoc] using ih
      | dismissed =>
          simp [List.filter_cons, hst]
          rw [← List.append_assoc, ← List.append_assoc]
          refine List.perm_middle.trans (List.Perm.cons v ?_)
          simpa [List.append_assoc] using ih

/-- C8: for every annotation mapping (full records) and every status
filter, each entry of the dashboard's filtered list has that status;
the four status-filtered lists together are a permutation (multiset
union) of the "all" list; and every filtered list is sorted by
descending creation timestamp. -/
theorem c8_dashboard_filter_invariant (m : Store)
    (_hfull : ∀ p ∈ m, ∃ a, p.2 = StoreValue.full a) :
    (∀ s : AnnotationStatus, ∀ v ∈ annotationList m (.status s), v.status = s)
      ∧ (annotationList m (.status .pending)
          ++ annotationList m (.status .inProgress)
          ++ annotationList m (.status .resolved)
          ++ annotationList m (.status .dismissed)).Perm (annotationList m .all)
      ∧ ∀ f : FilterOption,
          List.Sorted (fun a b : StoreValue => b.timestampVal ≤ a.timestampVal)
            (annotationList m f) := by
  refine ⟨?_, ?_, annotationList_sorted m⟩
  · intro s v hv
    have := List.of_mem_filter hv
    simpa using this
  · have h := four_filter_perm ((m.map Prod.snd).mergeSort byTimestampDesc)
    simpa [annotationList, List.append_assoc] using h

theorem c8_witness :
    (∀ p ∈ ([("k", StoreValue.full ⟨"k", "#s", ⟨"div", none, "#s", none, none⟩,
          "c", some "p", 3, .resolved⟩)] : Store), ∃ a, p.2 = StoreValue.full a)
      ∧ ∀ v ∈ annotationList
          ([("k", StoreValue.full ⟨"k", "#s", ⟨"div", none, "#s", none, none⟩,
            "c", some "p", 3, .resolved⟩)] : Store) (.status .resolved),
          v.status = .resolved := by
  constructor
  · intro p hp
    simp at hp
    rw [hp]
    exact ⟨_, rfl⟩
  · exact (c8_dashboard_filter_invariant _
      (by intro p hp; simp at hp; rw [hp]; exact ⟨_, rfl⟩)).1 .resolved

/-- C9 counterexample: an element with empty (or all-whitespace) text
content.  The trimmed text is `""` with length at most 50, yet the
descriptor's text content is absent rather than the trimmed text
unchanged, refuting the universally quantified claim. -/
theorem c9_counterexample :
    (jsTrim "").length ≤ 50 ∧ extractTextContent "" ≠ some (jsTrim "") := by
  refine ⟨by decide, by decide⟩

/-- C9 (amended): when the trimmed text is non-empty and has at most 50
characters it is returned unchanged; when it is empty the descriptor's
text content is absent; when it is longer than 50 characters the result
is its first 47 characters followed by the ellipsis marker `"..."`; and
every returned string has length at most 50. -/
theorem c9_text_content_truncation (raw : String) :
    (jsTrim raw ≠ "" ∧ (jsTrim raw).length ≤ 50 →
        extractTextContent raw = some (jsTrim raw))
      ∧ (jsTrim raw = "" → extractTextContent raw = none)
      ∧ ((jsTrim raw).length > 50 →
          extractTextContent raw
            = some (String.mk ((jsTrim raw).toList.take 47) ++ "..."))
      ∧ ∀ s, extractTextContent raw = some s → s.length ≤ 50 := by
  refine ⟨?_, ?_, ?_, ?_⟩
  · rintro ⟨hne, hle⟩
    simp [extractTextContent, hne]
    omega
  · intro he
    simp [extractTextContent, he]
  · intro hgt
    have hne : jsTrim raw ≠ "" := by
      intro he
      rw [he] at hgt
      simp at hgt
    simp [extractTextContent, hne, hgt]
  · intro s hs
    simp only [extractTextContent] at hs
    split at hs
    · exact absurd hs (by simp)
    · split at hs
      · have hs' := hs
        injection hs' with hs'
        subst hs'
        have h1 : ("..." : String).length = 3 := rfl
        have h2 : (String.mk ((jsTrim raw).toList.take 47)).length
            = ((jsTrim raw).toList.take 47).length := rfl
        rw [String.length_append, h2, List.length_take, h1]
        omega
      · have hs' := hs
        injection hs' with hs'
        subst hs'
        omega

theorem c9_witness :
    (jsTrim "  hello  " ≠ "" ∧ (jsTrim "  hello  ").length ≤ 50)
      ∧ extractTextContent "  hello  " = some (jsTrim "  hello  ") :=
  ⟨⟨by decide, by decide⟩, (c9_text_content_truncation "  hello  ").1
    ⟨by decide, by decide⟩⟩

/-- C10: the selector stored with a saved annotation comes from the
click handler's own rule (`#id` for a truthy id, else tag plus at most
the first two class names, with no `:nth-child` and no test-id or
debug-comment handling): every record the dialog saves for a clicked
element carries `clickSelector` of that element's data.  Moreover, for
an id-less `div` with no classes sitting first under the body, the
click handler's selector differs from the inspector's selector
generator output for the very same element. -/
theorem c10_click_selector_not_generator :
    (∀ (d : NodeData) (rawText genId comment aiPrompt : String) (now : Int)
        (a : AnnotationRecord),
        handleSave genId (clickElementInfo d rawText) comment aiPrompt now
            = some a →
        a.selector = clickSelector d)
      ∧ ∃ (d : NodeData) (tid np : Option String) (idx : Nat) (parent : Elem),
          d.id = "" ∧ truthy tid = false ∧ truthy np = false
            ∧ clickSelector d
              ≠ generateUniqueSelector (.node d tid np idx parent) := by
  constructor
  · intro d rawText genId comment aiPrompt now a h
    unfold handleSave at h
    split at h
    · exact absurd h (by simp)
    · have h' := h
      injection h' with h'
      subst h'
      rfl
  · exact ⟨⟨"div", "", []⟩, none, none, 0, .body, rfl, rfl, rfl, by decide⟩

theorem c10_witness :
    handleSave "anno-2" (clickElementInfo ⟨"div", "", []⟩ " txt ") "note" "p" 9
        = some ⟨"anno-2", "div", clickElementInfo ⟨"div", "", []⟩ " txt ",
          "note", some "p", 9, .pending⟩
      ∧ (⟨"anno-2", "div", clickElementInfo ⟨"div", "", []⟩ " txt ", "note",
          some "p", 9, .pending⟩ : AnnotationRecord).selector
        = clickSelector ⟨"div", "", []⟩ :=
  ⟨by decide,
    c10_click_selector_not_generator.1 ⟨"div", "", []⟩ " txt " "anno-2" "note"
      "p" 9 _ (by decide)⟩

end DebugTool
